import Mathlib

set_option maxRecDepth 8192

/-!
Shallow embedding of the AI news aggregator pipeline
(src/main.py, src/scoring.py, src/utils.py, src/db.py).

Python strings are modelled by Lean `String` (a sequence of Unicode code
points, matching Python `len` / slicing semantics).  Network and database
effects are modelled by explicit parameters: fetch oracles for the HTTP
calls, and the ledger passed around as the list of rows of the `sent`
table.
-/

namespace NewsAgg

/-- Occurrence of `sub` as a contiguous run inside a character list. -/
def hasInfix (sub : List Char) : List Char → Bool
  | [] => sub.isEmpty
  | c :: rest => sub.isPrefixOf (c :: rest) || hasInfix sub rest

/-- Python substring test `sub in t`. -/
def pyContains (t sub : String) : Bool := hasInfix sub.data t.data

/-- ASCII whitespace recognised by Python `str.strip()`. -/
def pyIsSpace (c : Char) : Bool :=
  c == ' ' || c == '\t' || c == '\n' || c == '\r' || c == Char.ofNat 11 || c == Char.ofNat 12

/-- Python `s.strip()`: drop whitespace from both ends. -/
def pyStrip (s : String) : String :=
  String.mk (((s.data.dropWhile pyIsSpace).reverse.dropWhile pyIsSpace).reverse)

/-- Python slice `s[:n]`. -/
def pyTake (n : Nat) (s : String) : String := String.mk (s.data.take n)

/-- Python `str.lower()` restricted to its ASCII action (the keyword table
is all ASCII, so only the ASCII case fold can affect keyword matching). -/
def pyToLower (s : String) : String := String.mk (s.data.map Char.toLower)

/-- Expansion of one character under Python `html.escape` (quote=True). -/
def escapeChar (c : Char) : List Char :=
  if c = '&' then "&amp;".data
  else if c = '<' then "&lt;".data
  else if c = '>' then "&gt;".data
  else if c = '"' then "&quot;".data
  else if c = Char.ofNat 39 then "&#x27;".data
  else [c]

/-- Python `html.escape(s)` as used in `format_digest_message`. -/
def html_escape (s : String) : String := String.mk (s.data.flatMap escapeChar)

/-- Suffix of `s` after the first occurrence of `sep`; models
`s.split(sep, 1)[-1]` when `sep` occurs in `s`. -/
def afterFirst (sep : List Char) : List Char → List Char
  | [] => []
  | c :: rest =>
    if sep.isPrefixOf (c :: rest) then (c :: rest).drop sep.length
    else afterFirst sep rest

/-- One collected news item: the tuple
`(title, link, summary, source_name_for_emoji_lookup)` used throughout
main.py and utils.py. -/
structure NewsItem where
  title : String
  link : String
  summary : String
  sourceName : String
deriving DecidableEq

/-- One scored item: the tuple `(title, link, summary, source_name, score)`
produced by `filter_and_rank` in scoring.py. -/
structure ScoredItem where
  title : String
  link : String
  summary : String
  sourceName : String
  score : Nat
deriving DecidableEq

/-- The keyword-to-weight table `KEYWORDS` of scoring.py, in source order. -/
def KEYWORDS : List (String × Nat) :=
  [("gpt", 5), ("gpt-4", 5), ("gpt-5", 5), ("chatgpt", 5),
   ("claude", 5), ("gemini", 5), ("llama", 5), ("mistral", 5),
   ("sora", 5), ("veo", 5), ("deepseek", 5), ("phi", 4),
   ("qwen", 4), ("gemma", 4), ("stable diffusion", 5),
   ("midjourney", 5), ("whisper", 4), ("copilot", 4),
   ("dall-e", 5), ("flux", 4), ("ideogram", 4),
   ("video model", 5), ("text-to-video", 5), ("video generation", 5),
   ("text-to-image", 4), ("image generation", 4), ("image model", 4),
   ("release", 4), ("released", 4), ("launch", 4), ("launches", 4),
   ("announce", 4), ("announcing", 4), ("introducing", 4),
   ("open-source", 4), ("open source", 4), ("breakthrough", 4),
   ("state-of-the-art", 4), ("sota", 4), ("new model", 5),
   ("benchmark", 3), ("multimodal", 4), ("agent", 3), ("agents", 3),
   ("reasoning", 3), ("fine-tune", 3), ("fine-tuning", 3),
   ("training", 3), ("transformer", 3), ("diffusion", 3),
   ("robotics", 3), ("self-driving", 3), ("autonomous", 3),
   ("hugging face", 3), ("openai", 4), ("anthropic", 4),
   ("deepmind", 4), ("google ai", 3), ("meta ai", 3),
   ("microsoft ai", 3), ("nvidia", 3),
   ("trending", 2), ("framework", 2), ("library", 2),
   ("api", 2), ("sdk", 2), ("dataset", 2), ("tool", 2)]

/-- scoring.py `MIN_SCORE`. -/
def MIN_SCORE : Nat := 3

/-- scoring.py `MAX_ITEMS`. -/
def MAX_ITEMS : Nat := 30

/-- scoring.py `score_item`: lower-case `f"{title} {summary}"` and add the
weight of every table entry whose keyword occurs as a substring. -/
def score_item (title summary : String) : Nat :=
  let text := pyToLower (title ++ " " ++ summary)
  KEYWORDS.foldl (fun score kw => if pyContains text kw.1 then score + kw.2 else score) 0

/-- The filtering loop of `filter_and_rank`: attach scores, keep items with
`score >= min_score`, preserving input order. -/
def scoredList (news_items : List NewsItem) (min_score : Nat) : List ScoredItem :=
  match news_items with
  | [] => []
  | it :: rest =>
    let item_score := score_item it.title it.summary
    if min_score ≤ item_score then
      ⟨it.title, it.link, it.summary, it.sourceName, item_score⟩ :: scoredList rest min_score
    else scoredList rest min_score

/-- Comparator of the Python stable sort
`scored_items.sort(key=lambda x: x[4], reverse=True)`:
`a` may come before `b` iff `a`'s score is at least `b`'s. -/
def scoreLE (a b : ScoredItem) : Bool := Nat.ble b.score a.score

/-- scoring.py `filter_and_rank`: score and filter, stable-sort by score
descending, cap at `max_items`.  Python list.sort is a stable sort, so it
is modelled by the (stable) `List.mergeSort`. -/
def filter_and_rank (news_items : List NewsItem) (min_score max_items : Nat) :
    List ScoredItem :=
  ((scoredList news_items min_score).mergeSort scoreLE).take max_items

/-- Python dict assignment `unique_news_items[link] = item` on an insertion
ordered association list: replace in place if the key is present, append
otherwise. -/
def upsert (m : List (String × NewsItem)) (k : String) (v : NewsItem) :
    List (String × NewsItem) :=
  if m.any (fun p => p.1 == k) then m.map (fun p => if p.1 == k then (k, v) else p)
  else m ++ [(k, v)]

/-- The deduplication tail of main.py `collect_all_news` (lines 87-97): the
adapter outputs are already concatenated into `all_news_items` (the
adapters themselves are network collaborators, modelled by this input
list); a dict keyed by link collapses duplicates, and the result is the
list of dict values in key-insertion order. -/
def collect_all_news (all_news_items : List NewsItem) : List NewsItem :=
  (all_news_items.foldl (fun m it => upsert m it.link it) []).map Prod.snd

/-- db.py `save_sent_link` on the rows of the `sent` table: the INSERT
succeeds when the link is absent and appends a row; when the link (the
PRIMARY KEY) is already present the IntegrityError is caught and
ignored. -/
def save_sent_link (sent : List String) (link : String) : List String :=
  if link ∈ sent then sent else sent ++ [link]

/-- Python `sep.join(xs)`. -/
def pyJoin (sep : String) : List String → String
  | [] => ""
  | [x] => x
  | x :: rest => x ++ sep ++ pyJoin sep rest

/-- utils.py `get_source_emoji`: the `emoji_map` dict, in source order.
The value strings reproduce the exact code points stored in the source
file (the file holds mojibake byte sequences; Python reads them as the
literal code points escaped here). -/
def emoji_map : List (String × String) :=
  [("Hugging Face Blog", "\u00F0\u0178\u00A4\u2014"),
   ("Hugging Face Paper", "\u00F0\u0178\u201C"),
   ("ML Reddit", "\u00F0\u0178\u00A4\u2013"),
   ("OpenAI Blog", "\u00E2\u0153\u00A8"),
   ("The Gradient", "\u00F0\u0178\u201C\u0153"),
   ("Jay Alammar", "\u00F0\u0178\u2019\u00A1"),
   ("DeepMind Blog", "\u00F0\u0178\u201D\u00AC"),
   ("AI From MIT News", "\u00F0\u0178\u017D\u201C"),
   ("General News From MIT News", "\u00F0\u0178\u203A\u00EF\u00B8"),
   ("Microsoft AI Blog", "\u00F0\u0178\u2019\u00BB"),
   ("machinelearningmastery Blog", "\u00F0\u0178\u2018\u00A8\u00E2\u20AC\u00F0\u0178\u00AB"),
   ("Nvidia AI Blog", "\u00F0\u0178\u0161\u20AC"),
   ("Towards Data Science", "\u00F0\u0178\u201C\u0160"),
   ("Hacker News", "\u00F0\u0178\u00A7\u2018\u00E2\u20AC\u00F0\u0178\u2019\u00BB"),
   ("The Verge", "\u00F0\u0178\u0178\u00A3"),
   ("GitHub Trending (python)", "\u00F0\u0178"),
   ("GitHub Trending (jupyter-notebook)", "\u00F0\u0178\u201C\u201C"),
   ("GitHub Trending (google colab)", "\u00E2\u02DC\u00EF\u00B8"),
   ("GitHub Trending (Artificial Intelligence)", "\u00F0\u0178\u00A7\u00A0"),
   ("GitHub Trending (AI)", "\u00F0\u0178\u00A7\u00A0"),
   ("GitHub Trending (machine-learning)", "\u00F0\u0178\u201C\u02C6"),
   ("GitHub Trending (deep-learning)", "\u00F0\u0178\u0152\u0152"),
   ("GitHub Trending (nlp)", "\u00F0\u0178\u2014\u00A3\u00EF\u00B8"),
   ("GitHub Trending (Natural Language Processing)", "\u00F0\u0178\u2014\u00A3\u00EF\u00B8"),
   ("GitHub Trending (CV)", "\u00F0\u0178\u2018\u00EF\u00B8"),
   ("GitHub Trending (Computer Vision)", "\u00F0\u0178\u2018\u00EF\u00B8"),
   ("GitHub Trending (Data Science)", "\u00F0\u0178\u00A7\u00AA"),
   ("GitHub Trending (Awesome Lists)", "\u00E2\u00AD")]

/-- utils.py `get_source_emoji`: dict lookup with the default sparkle
string. -/
def get_source_emoji (source_name : String) : String :=
  ((emoji_map.find? (fun p => p.1 == source_name)).map Prod.snd).getD "\u00E2\u0153\u00A8"

/-- main.py `TELEGRAM_MAX_LENGTH`. -/
def TELEGRAM_MAX_LENGTH : Nat := 4096

/-- Category test of `format_digest_message`: `"GitHub Trending" in source_name`. -/
def isGithubItem (it : ScoredItem) : Bool := pyContains it.sourceName "GitHub Trending"

/-- Category test of `format_digest_message`: not GitHub and `score >= 5`. -/
def isBigRelease (it : ScoredItem) : Bool := !isGithubItem it && Nat.ble 5 it.score

/-- Category test of `format_digest_message`: the residual `else` branch. -/
def isFlashNews (it : ScoredItem) : Bool := !isGithubItem it && !Nat.ble 5 it.score

/-- Lines appended per item of the Big Releases section
(main.py lines 141-146). -/
def bigReleaseLines (it : ScoredItem) : List String :=
  [get_source_emoji it.sourceName ++ " <b>" ++ html_escape it.title ++ "</b>",
   "   🔗 <a href=\x27" ++ it.link ++ "\x27>Read More</a>",
   ""]

/-- Lines appended per item of the GitHub Trending section
(main.py lines 152-163). -/
def githubLines (it : ScoredItem) : List String :=
  let repo_display :=
    if pyContains it.title ": " then String.mk (afterFirst ": ".data it.title.data)
    else it.title
  let escaped_repo := html_escape repo_display
  let escaped_summary :=
    if it.summary ≠ "" ∧ it.summary ≠ "No description available." then html_escape it.summary
    else ""
  [(if escaped_summary ≠ "" then
      get_source_emoji it.sourceName ++ " <b>" ++ escaped_repo ++ "</b> — " ++ escaped_summary
    else
      get_source_emoji it.sourceName ++ " <b>" ++ escaped_repo ++ "</b>"),
   "   🔗 <a href=\x27" ++ it.link ++ "\x27>Read More</a>",
   ""]

/-- Line appended per item of the Flash News section (main.py line 172). -/
def flashLine (it : ScoredItem) : String :=
  get_source_emoji it.sourceName ++ " <a href=\x27" ++ it.link ++ "\x27>" ++
    html_escape it.title ++ "</a>"

/-- The `lines` list built by `format_digest_message` (main.py lines
132-177).  `now` is the formatted timestamp and `chan` the value of
`TELEGRAM_CHANNEL_ID_FOR_FOOTER`, both supplied by the environment. -/
def digestLines (now chan : String) (scored_items : List ScoredItem) : List String :=
  let big_releases := scored_items.filter isBigRelease
  let github_trending := scored_items.filter isGithubItem
  let flash_news := scored_items.filter isFlashNews
  ["📰 <b>סיכום חדשות AI יומי</b>", "🗓 " ++ now, ""]
  ++ (if big_releases.isEmpty then []
      else ["🚀 <b>שחרורים גדולים</b>", ""] ++ big_releases.flatMap bigReleaseLines)
  ++ (if github_trending.isEmpty then []
      else ["🔥 <b>חם בגיטהאב</b>", ""] ++ github_trending.flatMap githubLines)
  ++ (if flash_news.isEmpty then []
      else ["⚡ <b>חדשות הבזק</b>", ""] ++ flash_news.map flashLine ++ [""])
  ++ ["📣 Channel: " ++ chan]

/-- The single message returned when all three categories are empty
(main.py line 181). -/
def no_news_message (now chan : String) : String :=
  "📰 <b>סיכום חדשות AI יומי</b>\n🗓 " ++ now ++
    "\n\nאין חדשות חדשות היום 🤷\n\n📣 Channel: " ++ chan

/-- Continuation header of a follow-up part (main.py line 199). -/
def contHeader (k : Nat) : String := "📰 <b>המשך סיכום (" ++ toString k ++ ")</b>\n\n"

/-- One iteration of the greedy splitting loop (main.py lines 195-201):
state is `(messages, current_msg, part_num)`. -/
def splitStep (st : List String × String × Nat) (line : String) :
    List String × String × Nat :=
  let test_line := line ++ "\n"
  if TELEGRAM_MAX_LENGTH - 50 < st.2.1.length + test_line.length then
    (st.1 ++ [pyStrip st.2.1], contHeader (st.2.2 + 1) ++ test_line, st.2.2 + 1)
  else
    (st.1, st.2.1 ++ test_line, st.2.2)

/-- The splitting phase of `format_digest_message` (main.py lines
191-207): fold the loop over all lines, then flush a non-empty remainder. -/
def splitMessages (lines : List String) : List String :=
  let st := lines.foldl splitStep ([], "", 1)
  if pyStrip st.2.1 ≠ "" then st.1 ++ [pyStrip st.2.1] else st.1

/-- main.py `format_digest_message`: categorize, render lines, return the
no-news message when every category is empty, else join with newlines and
split when the joined text exceeds `TELEGRAM_MAX_LENGTH`. -/
def format_digest_message (now chan : String) (scored_items : List ScoredItem) :
    List String :=
  let big_releases := scored_items.filter isBigRelease
  let github_trending := scored_items.filter isGithubItem
  let flash_news := scored_items.filter isFlashNews
  if big_releases.isEmpty ∧ github_trending.isEmpty ∧ flash_news.isEmpty then
    [no_news_message now chan]
  else
    let lines := digestLines now chan scored_items
    let full_message := pyJoin "\n" lines
    if full_message.length ≤ TELEGRAM_MAX_LENGTH then [full_message]
    else splitMessages lines

/-- Outcome of one transport `send_message` call, as distinguished by the
exception handlers of `send_digest_to_telegram`: plain success, a
`RetryAfter` rate-limit signal (whose single retry either succeeds or
fails), a `TimedOut`, or any other exception. -/
inductive SendOutcome where
  | success : SendOutcome
  | retryAfter : Bool → SendOutcome
  | timedOut : SendOutcome
  | failure : SendOutcome
deriving DecidableEq

/-- The send loop of `send_digest_to_telegram` (main.py lines 230-261) with
the transport modelled by the oracle `outcome` (indexed by attempt
position).  Returns the list of parts actually transmitted and whether the
loop ran to completion (`false` exactly on the early-`return` paths: a
failed rate-limit retry or a generic exception).  A `TimedOut` is caught,
the part is skipped, and the loop continues — the code prints that it will
retry but performs no retry. -/
def sendLoop (outcome : Nat → SendOutcome) : Nat → List String → List String × Bool
  | _, [] => ([], true)
  | i, msg :: rest =>
    match outcome i with
    | .success => ((sendLoop outcome (i + 1) rest).1.cons msg, (sendLoop outcome (i + 1) rest).2)
    | .retryAfter true =>
        ((sendLoop outcome (i + 1) rest).1.cons msg, (sendLoop outcome (i + 1) rest).2)
    | .retryAfter false => ([], false)
    | .timedOut => sendLoop outcome (i + 1) rest
    | .failure => ([], false)

/-- main.py `send_digest_to_telegram`: returns the pair (messages
transmitted, ledger rows after the call).  The ledger is the row list of
the `sent` table; identifiers are committed by the final loop of
`save_sent_link` calls only when the send loop ran to completion. -/
def send_digest_to_telegram (sent_links : List String) (now chan : String)
    (scored_items : List ScoredItem) (outcome : Nat → SendOutcome) :
    List String × List String :=
  if scored_items.isEmpty then ([], sent_links)
  else
    let digest_messages := format_digest_message now chan scored_items
    let r := sendLoop outcome 0 digest_messages
    if r.2 then (r.1, scored_items.foldl (fun db it => save_sent_link db it.link) sent_links)
    else (r.1, sent_links)

/-- The summary truncation expression shared by the three adapters
(utils.py lines 93, 143, 191):
`(summary[:200] + "...") if len(summary) > 200 else summary`. -/
def truncate_summary (summary : String) : String :=
  if summary.length > 200 then pyTake 200 summary ++ "..." else summary

/-- Result of one HTTP fetch: a parsed value, or a raised request
exception. -/
inductive Fetch (α : Type) where
  | ok : α → Fetch α
  | err : Fetch α
deriving DecidableEq

/-- Fields of one Hacker News story JSON object read by
`get_hacker_news_items` (`title`, `url`, `text`), each possibly absent.
The `text` field is modelled as already markup-stripped (the
BeautifulSoup call is an external collaborator). -/
structure HNStory where
  title : Option String
  url : Option String
  text : Option String
deriving DecidableEq

/-- The per-story loop of utils.py `get_hacker_news_items` (lines
131-149).  The whole loop body runs inside the single `try` of the
function, so a failed detail fetch raises out of the loop: the result is
`none` and the caller returns the empty list. -/
def hnLoop (sent_links : List String) (detail : Nat → Fetch HNStory) :
    List Nat → Option (List NewsItem)
  | [] => some []
  | story_id :: rest =>
    match detail story_id with
    | .err => none
    | .ok story =>
      let title := story.title.getD "No Title"
      let link := story.url.getD ("https://news.ycombinator.com/item?id=" ++ toString story_id)
      let summary0 := story.text.getD "Click to read more or join the discussion."
      let summary := truncate_summary summary0
      if title ≠ "" ∧ link ≠ "" ∧ link ∉ sent_links then
        (hnLoop sent_links detail rest).map
          (fun items => ⟨"Hacker News: " ++ title, link, summary, "Hacker News"⟩ :: items)
      else hnLoop sent_links detail rest

/-- utils.py `get_hacker_news_items` with the two HTTP fetches modelled by
oracles: `top` is the topstories request, `detail` the per-story request.
Any raised request exception is caught by the handlers at the bottom of
the function, which return the empty list. -/
def get_hacker_news_items (sent_links : List String) (limit : Nat)
    (top : Fetch (List Nat)) (detail : Nat → Fetch HNStory) : List NewsItem :=
  match top with
  | .err => []
  | .ok top_story_ids => (hnLoop sent_links detail (top_story_ids.take limit)).getD []

/-! ### Theorems -/

/-- The spec formulation of the scorer: the sum, over all entries of the
keyword table, of the entry weight when the keyword is a substring of the
lower-cased concatenation of title and summary. -/
def spec_score (title summary : String) : Nat :=
  let text := pyToLower (title ++ " " ++ summary)
  (KEYWORDS.map (fun kw => if pyContains text kw.1 then kw.2 else 0)).sum

theorem foldl_add_if (text : String) (l : List (String × Nat)) (n : Nat) :
    l.foldl (fun score kw => if pyContains text kw.1 then score + kw.2 else score) n
      = n + (l.map (fun kw => if pyContains text kw.1 then kw.2 else 0)).sum := by
  induction l generalizing n with
  | nil => simp
  | cons kw rest ih =>
    simp only [List.foldl_cons, List.map_cons, List.sum_cons]
    cases h : pyContains text kw.1
    · simp [h, ih]
    · simp [h, ih]
      omega

/-- C5: the accumulator loop of `score_item` computes exactly the sum over
the keyword table of the weights of matched entries, so each entry
contributes its weight at most once; and distinct overlapping entries
contribute independently: a title containing "gpt-4" matches both the
"gpt" entry and the "gpt-4" entry (weight 5 each, total 10). -/
theorem score_item_eq_spec_score :
    (∀ title summary, score_item title summary = spec_score title summary)
    ∧ score_item "gpt-4" "" = 10 := by
  refine ⟨fun title summary => ?_, by decide⟩
  unfold score_item spec_score
  simpa using foldl_add_if (pyToLower (title ++ " " ++ summary)) KEYWORDS 0

/-- C10: with an empty scored-item list the publisher returns at the
`if not scored_items` guard: no message is transmitted (in particular the
formatter's no-news message is never sent) and the ledger is unchanged. -/
theorem send_digest_to_telegram_empty :
    ∀ (sent_links : List String) (now chan : String) (outcome : Nat → SendOutcome),
      send_digest_to_telegram sent_links now chan [] outcome = ([], sent_links) := by
  intro sent_links now chan outcome
  simp [send_digest_to_telegram]

/-- C1 (failing input): when the transport times out on the only digest
part, the `TimedOut` handler merely sleeps — the loop continues without
retrying and without returning — so the part is never transmitted, yet the
function falls through to the commit loop and inserts the identifier into
the ledger.  The claimed no-write-on-failure property is violated on this
input. -/
theorem send_digest_to_telegram_timeout_commits :
    send_digest_to_telegram [] "01/01/2025 09:00" "@chan"
        [⟨"t", "https://x", "s", "Hacker News", 5⟩] (fun _ => SendOutcome.timedOut)
      = ([], ["https://x"]) := by
  decide

/-- C8: ledger insert is idempotent: inserting a present identifier is a
no-op, inserting twice equals inserting once (same rows, hence same size
and contents), and insert preserves freedom from duplicate rows. -/
theorem save_sent_link_idempotent :
    ∀ (sent : List String) (link : String),
      (link ∈ sent → save_sent_link sent link = sent)
      ∧ save_sent_link (save_sent_link sent link) link = save_sent_link sent link
      ∧ (sent.Nodup → (save_sent_link sent link).Nodup) := by
  intro sent link
  refine ⟨fun h => by simp [save_sent_link, h], ?_, fun h => ?_⟩
  · by_cases h : link ∈ sent
    · simp [save_sent_link, h]
    · simp [save_sent_link, h]
  · by_cases h2 : link ∈ sent
    · simpa [save_sent_link, h2] using h
    · simp [save_sent_link, h2, List.nodup_append, h]

theorem save_sent_link_idempotent_witness :
    save_sent_link ["https://a"] "https://a" = ["https://a"]
    ∧ save_sent_link (save_sent_link ["https://a"] "https://b") "https://b"
        = save_sent_link ["https://a"] "https://b"
    ∧ (save_sent_link ["https://a"] "https://b").Nodup :=
  ⟨(save_sent_link_idempotent ["https://a"] "https://a").1 (by decide),
   (save_sent_link_idempotent ["https://a"] "https://b").2.1,
   (save_sent_link_idempotent ["https://a"] "https://b").2.2 (by decide)⟩

/-- C6: the adapters' truncation expression caps every stored summary at
203 code points (200 retained characters plus the three-dot ellipsis); on
over-long input the result is exactly a 200-character prefix of the input
followed by "...". -/
theorem truncate_summary_bound :
    ∀ s : String,
      (truncate_summary s).length ≤ 203
      ∧ (200 < s.length →
          (truncate_summary s).length = 203
          ∧ (truncate_summary s).data.take 200 <+: s.data
          ∧ (truncate_summary s).data.drop 200 = "...".data) := by
  intro s
  have hsd : s.data.length = s.length := rfl
  by_cases h : s.length > 200
  · have hd : (truncate_summary s).data = s.data.take 200 ++ "...".data := by
      simp [truncate_summary, h, pyTake]
    have hlen200 : (s.data.take 200).length = 200 := by
      simp only [List.length_take]
      omega
    have hlen : (truncate_summary s).length = 203 := by
      show (truncate_summary s).data.length = 203
      rw [hd, List.length_append, hlen200]
      rfl
    refine ⟨by omega, fun _ => ⟨hlen, ?_, ?_⟩⟩
    · rw [hd, List.take_left' hlen200]
      exact List.take_prefix _ _
    · rw [hd, List.drop_left' hlen200]
  · have : (truncate_summary s).length = s.length := by simp [truncate_summary, h]
    exact ⟨by omega, fun hc => absurd hc h⟩

theorem truncate_summary_bound_witness :
    (truncate_summary (String.mk (List.replicate 201 (Char.ofNat 97)))).length = 203
    ∧ (truncate_summary (String.mk (List.replicate 201 (Char.ofNat 97)))).data.take 200
        <+: (String.mk (List.replicate 201 (Char.ofNat 97))).data :=
  ⟨((truncate_summary_bound (String.mk (List.replicate 201 (Char.ofNat 97)))).2
      (by decide)).1,
   ((truncate_summary_bound (String.mk (List.replicate 201 (Char.ofNat 97)))).2
      (by decide)).2.1⟩

theorem scoreLE_trans : ∀ a b c : ScoredItem, scoreLE a b → scoreLE b c → scoreLE a c := by
  intro a b c
  simp only [scoreLE, Nat.ble_eq]
  omega

theorem scoreLE_total : ∀ a b : ScoredItem, scoreLE a b || scoreLE b a := by
  intro a b
  simp only [scoreLE, Bool.or_eq_true, Nat.ble_eq]
  omega

theorem scoredList_mem_score {news_items : List NewsItem} {min_score : Nat} :
    ∀ x ∈ scoredList news_items min_score, min_score ≤ x.score := by
  induction news_items with
  | nil => simp [scoredList]
  | cons it rest ih =>
    intro x hx
    by_cases h : min_score ≤ score_item it.title it.summary
    · simp only [scoredList, h, if_true, List.mem_cons] at hx
      rcases hx with rfl | hx
      · exact h
      · exact ih x hx
    · simp only [scoredList, h, if_false] at hx
      exact ih x hx

/-- C3: the output of `filter_and_rank` only has items scoring at least
`min_score`, is capped at `max_items`, and is sorted by non-increasing
score. -/
theorem filter_and_rank_invariant :
    ∀ (news_items : List NewsItem) (min_score max_items : Nat),
      (∀ it ∈ filter_and_rank news_items min_score max_items, min_score ≤ it.score)
      ∧ (filter_and_rank news_items min_score max_items).length ≤ max_items
      ∧ (filter_and_rank news_items min_score max_items).Pairwise
          (fun a b => b.score ≤ a.score) := by
  intro news_items min_score max_items
  refine ⟨?_, ?_, ?_⟩
  · intro it hit
    have h1 : it ∈ (scoredList news_items min_score).mergeSort scoreLE :=
      List.mem_of_mem_take hit
    exact scoredList_mem_score it (List.mem_mergeSort.mp h1)
  · exact List.length_take_le _ _
  · have hs : ((scoredList news_items min_score).mergeSort scoreLE).Pairwise
        (scoreLE · ·) :=
      List.sorted_mergeSort scoreLE_trans scoreLE_total (scoredList news_items min_score)
    have hp : (filter_and_rank news_items min_score max_items).Pairwise (scoreLE · ·) :=
      List.Pairwise.sublist (List.take_sublist max_items _) hs
    exact hp.imp (fun hab => by simpa only [scoreLE, Nat.ble_eq] using hab)

theorem filter_and_rank_singleton_eval :
    filter_and_rank [⟨"gpt release", "l1", "", "s"⟩] MIN_SCORE MAX_ITEMS
      = [⟨"gpt release", "l1", "", "s", 9⟩] := by
  have h9 : score_item "gpt release" "" = 9 := by decide
  simp [filter_and_rank, scoredList, h9, MIN_SCORE, MAX_ITEMS]

theorem filter_and_rank_invariant_witness :
    MIN_SCORE ≤ (ScoredItem.mk "gpt release" "l1" "" "s" 9).score
    ∧ (filter_and_rank [⟨"gpt release", "l1", "", "s"⟩] MIN_SCORE MAX_ITEMS).length ≤ MAX_ITEMS :=
  ⟨(filter_and_rank_invariant [⟨"gpt release", "l1", "", "s"⟩] MIN_SCORE MAX_ITEMS).1 _
      (by rw [filter_and_rank_singleton_eval]; exact List.mem_singleton.mpr rfl),
   (filter_and_rank_invariant [⟨"gpt release", "l1", "", "s"⟩] MIN_SCORE MAX_ITEMS).2.1⟩

theorem pairwise_scoreLE_of_same_score (s : Nat) :
    ∀ l : List ScoredItem, (∀ x ∈ l, x.score = s) → l.Pairwise (scoreLE · ·) := by
  intro l h
  induction l with
  | nil => exact List.Pairwise.nil
  | cons a rest ih =>
    refine List.Pairwise.cons (fun b hb => ?_) (ih (fun x hx => h x (List.mem_cons_of_mem a hx)))
    have ha := h a (List.mem_cons_self a rest)
    have hb2 := h b (List.mem_cons_of_mem a hb)
    simp [scoreLE, Nat.ble_eq, ha, hb2]

theorem filter_mergeSort_same_score (l : List ScoredItem) (s : Nat) :
    (l.mergeSort scoreLE).filter (fun it => it.score == s)
      = l.filter (fun it => it.score == s) := by
  have hall : ∀ x ∈ l.filter (fun it => it.score == s), x.score = s := by
    intro x hx
    simpa using (List.mem_filter.mp hx).2
  have hsub : List.Sublist (l.filter (fun it => it.score == s)) (l.mergeSort scoreLE) :=
    List.sublist_mergeSort scoreLE_trans scoreLE_total
      (pairwise_scoreLE_of_same_score s _ hall) (List.filter_sublist l)
  have hid : (l.filter (fun it => it.score == s)).filter (fun it => it.score == s)
      = l.filter (fun it => it.score == s) :=
    List.filter_eq_self.mpr (fun a ha => by simp [hall a ha])
  have hsubf : List.Sublist (l.filter (fun it => it.score == s))
      ((l.mergeSort scoreLE).filter (fun it => it.score == s)) := by
    have h2 := hsub.filter (fun it => it.score == s)
    rwa [hid] at h2
  have hperm : List.Perm ((l.mergeSort scoreLE).filter (fun it => it.score == s))
      (l.filter (fun it => it.score == s)) :=
    (List.mergeSort_perm l scoreLE).filter _
  exact (hsubf.eq_of_length hperm.length_eq.symm).symm

/-- Reconstruction of the plain item underlying a scored item. -/
def unscore (it : ScoredItem) : NewsItem := ⟨it.title, it.link, it.summary, it.sourceName⟩

theorem scoredList_sublist (news_items : List NewsItem) (min_score : Nat) :
    List.Sublist ((scoredList news_items min_score).map unscore) news_items := by
  induction news_items with
  | nil => simp [scoredList]
  | cons it rest ih =>
    by_cases h : min_score ≤ score_item it.title it.summary
    · simpa [scoredList, h, unscore] using List.Sublist.cons₂ it ih
    · simp only [scoredList, h, if_false]
      exact ih.cons it

/-- C9: the ranking step is a stable descending sort.  The filtering loop
(`scoredList`) preserves input order (its underlying items form a sublist
of the input), and, for every score value `s`, the items of score `s` in
the output of `filter_and_rank` form, in order, an initial segment of the
items of score `s` of the filtering loop output — so any two retained
equal-score items appear in the output in their input relative order. -/
theorem filter_and_rank_stable :
    ∀ (news_items : List NewsItem) (min_score max_items s : Nat),
      List.Sublist ((scoredList news_items min_score).map unscore) news_items
      ∧ ∃ n, (filter_and_rank news_items min_score max_items).filter
            (fun it => it.score == s)
          = ((scoredList news_items min_score).filter (fun it => it.score == s)).take n := by
  intro news_items min_score max_items s
  refine ⟨scoredList_sublist news_items min_score, ?_⟩
  set sorted := (scoredList news_items min_score).mergeSort scoreLE with hsorted
  set p : ScoredItem → Bool := fun it => it.score == s with hp
  refine ⟨((sorted.take max_items).filter p).length, ?_⟩
  have hsplit : sorted.filter p
      = (sorted.take max_items).filter p ++ (sorted.drop max_items).filter p := by
    rw [← List.filter_append, List.take_append_drop]
  have hkey : (scoredList news_items min_score).filter p = sorted.filter p :=
    (filter_mergeSort_same_score _ s).symm
  rw [show filter_and_rank news_items min_score max_items = sorted.take max_items from rfl,
    hkey, hsplit, List.take_left]

theorem any_key_iff (m : List (String × NewsItem)) (k : String) :
    m.any (fun p => p.1 == k) = true ↔ k ∈ m.map Prod.fst := by
  rw [List.any_eq_true]
  constructor
  · rintro ⟨p, hp, hpk⟩
    exact (eq_of_beq hpk) ▸ List.mem_map_of_mem Prod.fst hp
  · intro hk
    obtain ⟨p, hp, hpk⟩ := List.mem_map.mp hk
    exact ⟨p, hp, by simp [hpk]⟩

theorem upsert_map_fst_of_mem {m : List (String × NewsItem)} {k : String} (v : NewsItem)
    (h : m.any (fun p => p.1 == k) = true) :
    (upsert m k v).map Prod.fst = m.map Prod.fst := by
  simp only [upsert, h, if_true]
  rw [List.map_map]
  apply List.map_congr_left
  intro p hp
  by_cases hpk : (p.1 == k) = true
  · simp only [Function.comp_apply, hpk, if_true]
    exact (eq_of_beq hpk).symm
  · have hne : ¬p.1 = k := by simpa using hpk
    simp [Function.comp_apply, hne]

theorem upsert_map_fst_of_not {m : List (String × NewsItem)} {k : String} (v : NewsItem)
    (h : m.any (fun p => p.1 == k) = false) :
    (upsert m k v).map Prod.fst = m.map Prod.fst ++ [k] := by
  simp [upsert, h]

theorem upsert_nodup {m : List (String × NewsItem)} {k : String} {v : NewsItem}
    (h : (m.map Prod.fst).Nodup) : ((upsert m k v).map Prod.fst).Nodup := by
  cases hany : m.any (fun p => p.1 == k)
  · rw [upsert_map_fst_of_not v hany]
    have hk : k ∉ m.map Prod.fst := by
      intro hmem
      have := (any_key_iff m k).mpr hmem
      rw [hany] at this
      exact Bool.false_ne_true this
    simp [List.nodup_append, h, hk]
  · rw [upsert_map_fst_of_mem v hany]
    exact h

theorem upsert_links {m : List (String × NewsItem)} {k : String} {v : NewsItem}
    (h : ∀ p ∈ m, p.2.link = p.1) (hv : v.link = k) :
    ∀ p ∈ upsert m k v, p.2.link = p.1 := by
  intro p hp
  by_cases hany : m.any (fun p => p.1 == k) = true
  · simp only [upsert, hany, if_true] at hp
    obtain ⟨q, hq, rfl⟩ := List.mem_map.mp hp
    by_cases hqk : (q.1 == k) = true
    · simp [hqk, hv]
    · simp only [hqk, if_false]
      exact h q hq
  · simp only [upsert, hany, if_false] at hp
    rcases List.mem_append.mp hp with hp | hp
    · exact h p hp
    · rw [List.mem_singleton.mp hp]
      exact hv

theorem find?_cons_ite {α : Type} (p : α → Bool) (a : α) (l : List α) :
    List.find? p (a :: l) = if p a then some a else List.find? p l := by
  by_cases h : p a = true
  · rw [if_pos h]
    exact List.find?_cons_of_pos l h
  · rw [if_neg h]
    exact List.find?_cons_of_neg l h

theorem find?_map_repl {k : String} (v : NewsItem) :
    ∀ m : List (String × NewsItem), m.any (fun p => p.1 == k) = true →
      (m.map (fun p => if p.1 == k then (k, v) else p)).find? (fun p => p.1 == k)
        = some (k, v) := by
  intro m
  induction m with
  | nil => simp
  | cons q rest ih =>
    intro h
    by_cases hq : (q.1 == k) = true
    · rw [List.map_cons, if_pos hq, find?_cons_ite]
      simp
    · have hqf : (q.1 == k) = false := by simpa using hq
      rw [List.map_cons, if_neg hq, find?_cons_ite]
      rw [hqf]
      simp only [Bool.false_eq_true, if_false]
      exact ih (by simpa [List.any_cons, hqf] using h)

theorem find?_map_repl_other {k k' : String} (v : NewsItem) (hk : (k == k') = false) :
    ∀ m : List (String × NewsItem),
      (m.map (fun p => if p.1 == k then (k, v) else p)).find? (fun p => p.1 == k')
        = m.find? (fun p => p.1 == k') := by
  intro m
  induction m with
  | nil => simp
  | cons q rest ih =>
    rw [List.map_cons, find?_cons_ite, find?_cons_ite]
    by_cases hq : (q.1 == k) = true
    · have hq' : (q.1 == k') = false := by rw [eq_of_beq hq]; exact hk
      rw [if_pos hq]
      show (if ((k, v).1 == k') = true then some ((k, v) : String × NewsItem)
          else _) = _
      rw [show (((k, v) : String × NewsItem).1 == k') = false from hk, hq']
      simp only [Bool.false_eq_true, if_false]
      exact ih
    · rw [if_neg hq]
      by_cases hq' : (q.1 == k') = true
      · simp [hq']
      · have hq'f : (q.1 == k') = false := by simpa using hq'
        rw [hq'f]
        simp only [Bool.false_eq_true, if_false]
        exact ih

theorem find?_upsert_self {m : List (String × NewsItem)} {k : String} {v : NewsItem} :
    (upsert m k v).find? (fun p => p.1 == k) = some (k, v) := by
  cases hany : m.any (fun p => p.1 == k)
  · simp only [upsert, hany, Bool.false_eq_true, if_false]
    rw [List.find?_append]
    have h1 : m.find? (fun p => p.1 == k) = none := by
      rw [List.find?_eq_none]
      intro x hx hpx
      have hcontr : m.any (fun p => p.1 == k) = true := List.any_eq_true.mpr ⟨x, hx, hpx⟩
      rw [hany] at hcontr
      exact Bool.false_ne_true hcontr
    rw [h1, Option.none_or, find?_cons_ite]
    simp
  · simp only [upsert, hany, if_true]
    exact find?_map_repl v m hany

theorem find?_upsert_other {m : List (String × NewsItem)} {k k' : String} {v : NewsItem}
    (hk : (k == k') = false) :
    (upsert m k v).find? (fun p => p.1 == k') = m.find? (fun p => p.1 == k') := by
  cases hany : m.any (fun p => p.1 == k)
  · simp only [upsert, hany, Bool.false_eq_true, if_false]
    rw [List.find?_append, find?_cons_ite]
    show (m.find? fun p => p.1 == k').or
        (if (((k, v) : String × NewsItem).1 == k') = true then _ else _) = _
    rw [show (((k, v) : String × NewsItem).1 == k') = false from hk]
    simp only [Bool.false_eq_true, if_false, List.find?_nil, Option.or_none]
  · simp only [upsert, hany, if_true]
    exact find?_map_repl_other v hk m

theorem dedup_inv (rest : List NewsItem) :
    ∀ m : List (String × NewsItem),
      (m.map Prod.fst).Nodup → (∀ p ∈ m, p.2.link = p.1) →
      ((rest.foldl (fun acc it => upsert acc it.link it) m).map Prod.fst).Nodup
      ∧ (∀ p ∈ rest.foldl (fun acc it => upsert acc it.link it) m, p.2.link = p.1)
      ∧ (∀ k, ((rest.foldl (fun acc it => upsert acc it.link it) m).find?
              (fun p => p.1 == k)).map Prod.snd
           = (rest.reverse.find? (fun y => y.link == k)).or
               ((m.find? (fun p => p.1 == k)).map Prod.snd)) := by
  induction rest with
  | nil =>
    intro m h1 h2
    exact ⟨h1, h2, fun k => by simp⟩
  | cons it rest ih =>
    intro m h1 h2
    obtain ⟨g1, g2, g3⟩ := ih (upsert m it.link it) (upsert_nodup h1) (upsert_links h2 rfl)
    refine ⟨g1, g2, fun k => ?_⟩
    rw [List.foldl_cons, g3 k, List.reverse_cons, List.find?_append]
    by_cases hk : (it.link == k) = true
    · have hkk : it.link = k := eq_of_beq hk
      subst hkk
      rw [find?_upsert_self]
      have hone : List.find? (fun y => y.link == it.link) [it] = some it := by
        rw [find?_cons_ite]
        simp
      rw [hone, Option.or_assoc]
      simp
    · have hkb : (it.link == k) = false := by simpa using hk
      rw [find?_upsert_other hkb]
      have hone : List.find? (fun y => y.link == k) [it] = none := by
        rw [find?_cons_ite, hkb]
        simp
      rw [hone, Option.or_none]

theorem find?_key_of_nodup :
    ∀ m : List (String × NewsItem), (m.map Prod.fst).Nodup → ∀ p ∈ m,
      m.find? (fun q => q.1 == p.1) = some p := by
  intro m
  induction m with
  | nil => simp
  | cons q rest ih =>
    intro hnd p hp
    rw [List.map_cons] at hnd
    have hnd' := List.nodup_cons.mp hnd
    rcases List.mem_cons.mp hp with rfl | hp'
    · rw [find?_cons_ite]
      simp
    · have hq : (q.1 == p.1) = false := by
        rw [beq_eq_false_iff_ne]
        intro hcontr
        exact hnd'.1 (hcontr ▸ List.mem_map_of_mem Prod.fst hp')
      rw [find?_cons_ite, hq]
      simp only [Bool.false_eq_true, if_false]
      exact ih hnd'.2 p hp'

/-- C4: the Collector's deduplication: the output has pairwise distinct
identifiers; an identifier appears in the output iff it appears in the
concatenated adapter input; and the item retained for an identifier is the
last occurrence of that identifier in the input (last writer wins). -/
theorem collect_all_news_dedup :
    ∀ all_news_items : List NewsItem,
      ((collect_all_news all_news_items).map (fun it => it.link)).Nodup
      ∧ (∀ l, l ∈ (collect_all_news all_news_items).map (fun it => it.link)
            ↔ l ∈ all_news_items.map (fun it => it.link))
      ∧ ∀ x ∈ collect_all_news all_news_items,
          all_news_items.reverse.find? (fun y => y.link == x.link) = some x := by
  intro all_news_items
  obtain ⟨g1, g2, g3⟩ := dedup_inv all_news_items [] (by simp) (by simp)
  have g3' : ∀ k, ((all_news_items.foldl (fun acc it => upsert acc it.link it)
        []).find? (fun p => p.1 == k)).map Prod.snd
      = all_news_items.reverse.find? (fun y => y.link == k) := by
    intro k
    rw [g3 k]
    simp
  have hmapeq : (collect_all_news all_news_items).map (fun it => it.link)
      = (all_news_items.foldl (fun acc it => upsert acc it.link it) []).map Prod.fst := by
    show ((all_news_items.foldl (fun acc it => upsert acc it.link it) []).map
        Prod.snd).map (fun it => it.link) = _
    rw [List.map_map]
    exact List.map_congr_left (fun p hp => g2 p hp)
  refine ⟨hmapeq ▸ g1, fun l => ?_, fun x hx => ?_⟩
  · rw [hmapeq]
    constructor
    · intro hl
      obtain ⟨p, hp, hpl⟩ := List.mem_map.mp hl
      have hfind := find?_key_of_nodup _ g1 p hp
      rw [hpl] at hfind
      have hsome : (all_news_items.reverse.find? (fun y => y.link == l)).isSome := by
        rw [← g3' l, hfind]
        rfl
      obtain ⟨y, hy, hyl⟩ := List.find?_isSome.mp hsome
      exact (eq_of_beq hyl) ▸
        List.mem_map_of_mem (fun it => it.link) (List.mem_reverse.mp hy)
    · intro hl
      obtain ⟨y, hy, hyl⟩ := List.mem_map.mp hl
      have hsome : (all_news_items.reverse.find? (fun y => y.link == l)).isSome :=
        List.find?_isSome.mpr ⟨y, List.mem_reverse.mpr hy, by simp [hyl]⟩
      have hsome2 : ((all_news_items.foldl (fun acc it => upsert acc it.link it)
          []).find? (fun p => p.1 == l)).isSome := by
        rw [← Option.isSome_map', g3' l]
        exact hsome
      obtain ⟨p, hp, hpl⟩ := List.find?_isSome.mp hsome2
      exact (eq_of_beq hpl) ▸ List.mem_map_of_mem Prod.fst hp
  · obtain ⟨p, hp, rfl⟩ := List.mem_map.mp hx
    have hkey : p.2.link = p.1 := g2 p hp
    have hfind := find?_key_of_nodup _ g1 p hp
    have h3 := g3' p.1
    rw [hfind] at h3
    rw [hkey]
    exact h3.symm

theorem collect_all_news_dedup_witness :
    collect_all_news [⟨"t1", "L", "s1", "a"⟩, ⟨"t2", "L", "s2", "b"⟩, ⟨"t3", "M", "s3", "c"⟩]
        = [⟨"t2", "L", "s2", "b"⟩, ⟨"t3", "M", "s3", "c"⟩]
    ∧ [(⟨"t1", "L", "s1", "a"⟩ : NewsItem), ⟨"t2", "L", "s2", "b"⟩,
        ⟨"t3", "M", "s3", "c"⟩].reverse.find? (fun y => y.link == "L")
        = some ⟨"t2", "L", "s2", "b"⟩ :=
  ⟨by decide,
   (collect_all_news_dedup
      [⟨"t1", "L", "s1", "a"⟩, ⟨"t2", "L", "s2", "b"⟩, ⟨"t3", "M", "s3", "c"⟩]).2.2
      ⟨"t2", "L", "s2", "b"⟩ (by decide)⟩


theorem hnLoop_none_of_err (sent_links : List String) (detail : Nat → Fetch HNStory) :
    ∀ ids : List Nat, (∃ i ∈ ids, detail i = Fetch.err) →
      hnLoop sent_links detail ids = none := by
  intro ids
  induction ids with
  | nil =>
    rintro ⟨i, hi, -⟩
    cases hi
  | cons story_id rest ih =>
    rintro ⟨i, hi, herr⟩
    rcases List.mem_cons.mp hi with rfl | hi'
    · simp [hnLoop, herr]
    · cases hd : detail story_id with
      | err => simp [hnLoop, hd]
      | ok story =>
        have hrec := ih ⟨i, hi', herr⟩
        unfold hnLoop
        rw [hd]
        simp only [hrec, Option.map_none]
        split <;> rfl

/-- C7 (amended): a failed detail fetch inside the per-story loop raises
out of the whole `try` block of `get_hacker_news_items`, so the adapter
returns the empty list: the remaining stories are not fetched and no item
at all is returned for this source. -/
theorem get_hacker_news_items_abort_on_error :
    ∀ (sent_links : List String) (limit : Nat) (ids : List Nat)
      (detail : Nat → Fetch HNStory),
      (∃ i ∈ ids.take limit, detail i = Fetch.err) →
      get_hacker_news_items sent_links limit (Fetch.ok ids) detail = [] := by
  intro sent_links limit ids detail hex
  show (hnLoop sent_links detail (List.take limit ids)).getD [] = []
  rw [hnLoop_none_of_err sent_links detail _ hex]
  rfl

/-- Detail-fetch oracle for the C7 counterexample: story 0 raises, every
other story succeeds. -/
def hnDetailCex : Nat → Fetch HNStory := fun i =>
  if i = 0 then Fetch.err else Fetch.ok ⟨some "T", some "http://t", none⟩

theorem get_hacker_news_items_abort_on_error_witness :
    get_hacker_news_items [] 2 (Fetch.ok [0, 1]) hnDetailCex = [] :=
  get_hacker_news_items_abort_on_error [] 2 [0, 1] hnDetailCex ⟨0, by decide, by decide⟩

/-- C7 (counterexample): with top stories `[0, 1]` and a detail oracle that
fails on story 0 only, the adapter returns the empty list — the item of
story 1 is not included although its own detail fetch succeeds (running
the adapter on `[1]` alone yields its item). -/
theorem get_hacker_news_items_abort_cex :
    get_hacker_news_items [] 2 (Fetch.ok [0, 1]) hnDetailCex = []
    ∧ hnDetailCex 1 = Fetch.ok ⟨some "T", some "http://t", none⟩
    ∧ get_hacker_news_items [] 2 (Fetch.ok [1]) hnDetailCex
        = [⟨"Hacker News: T", "http://t", "Click to read more or join the discussion.",
            "Hacker News"⟩] :=
  ⟨by decide, by decide, by decide⟩

theorem pyStrip_length_le (s : String) : (pyStrip s).length ≤ s.length := by
  show (((s.data.dropWhile pyIsSpace).reverse.dropWhile pyIsSpace).reverse).length
      ≤ s.data.length
  rw [List.length_reverse]
  calc ((s.data.dropWhile pyIsSpace).reverse.dropWhile pyIsSpace).length
      ≤ (s.data.dropWhile pyIsSpace).reverse.length :=
        (List.dropWhile_sublist pyIsSpace).length_le
    _ = (s.data.dropWhile pyIsSpace).length := List.length_reverse _
    _ ≤ s.data.length := (List.dropWhile_sublist pyIsSpace).length_le

theorem length_newline : ("\n" : String).length = 1 := rfl

theorem length_append_newline (line : String) :
    (line ++ "\n").length = line.length + 1 := by
  rw [String.length_append, length_newline]

theorem splitLoop_inv (bound : Nat) :
    ∀ (rest : List String) (msgs : List String) (cur : String) (pn : Nat),
      (∀ l ∈ rest, ∀ k, k ≤ bound →
          (contHeader k).length + (l.length + 1) ≤ TELEGRAM_MAX_LENGTH - 50) →
      pn + rest.length ≤ bound →
      (∀ m ∈ msgs, m.length ≤ TELEGRAM_MAX_LENGTH - 50) →
      cur.length ≤ TELEGRAM_MAX_LENGTH - 50 →
      (∀ m ∈ (rest.foldl splitStep (msgs, cur, pn)).1, m.length ≤ TELEGRAM_MAX_LENGTH - 50)
      ∧ (rest.foldl splitStep (msgs, cur, pn)).2.1.length ≤ TELEGRAM_MAX_LENGTH - 50 := by
  intro rest
  induction rest with
  | nil =>
    intro msgs cur pn _ _ h3 h4
    exact ⟨h3, h4⟩
  | cons line rest ih =>
    intro msgs cur pn h1 h2 h3 h4
    rw [List.foldl_cons]
    by_cases hcond : TELEGRAM_MAX_LENGTH - 50 < cur.length + (line.length + 1)
    · have hstep : splitStep (msgs, cur, pn) line
          = (msgs ++ [pyStrip cur], contHeader (pn + 1) ++ (line ++ "\n"), pn + 1) := by
        simp [splitStep, String.length_append, length_newline, hcond]
      rw [hstep]
      apply ih
      · exact fun l hl k hk => h1 l (List.mem_cons_of_mem _ hl) k hk
      · simp only [List.length_cons] at h2
        omega
      · intro m hm
        rcases List.mem_append.mp hm with hm | hm
        · exact h3 m hm
        · rw [List.mem_singleton.mp hm]
          exact le_trans (pyStrip_length_le cur) h4
      · have hk : pn + 1 ≤ bound := by
          simp only [List.length_cons] at h2
          omega
        have hb := h1 line (List.mem_cons_self line rest) (pn + 1) hk
        rw [String.length_append, length_append_newline]
        omega
    · have hstep : splitStep (msgs, cur, pn) line = (msgs, cur ++ (line ++ "\n"), pn) := by
        simp [splitStep, String.length_append, length_newline, hcond]
      rw [hstep]
      apply ih
      · exact fun l hl k hk => h1 l (List.mem_cons_of_mem _ hl) k hk
      · simp only [List.length_cons] at h2
        omega
      · exact h3
      · rw [String.length_append, length_append_newline]
        omega

theorem splitMessages_bound (lines : List String)
    (h : ∀ l ∈ lines, ∀ k, k ≤ lines.length + 1 →
        (contHeader k).length + (l.length + 1) ≤ TELEGRAM_MAX_LENGTH - 50) :
    ∀ m ∈ splitMessages lines, m.length ≤ TELEGRAM_MAX_LENGTH - 50 := by
  intro m hm
  obtain ⟨hmsg, hcur⟩ := splitLoop_inv (lines.length + 1) lines [] "" 1 h (by omega)
    (by simp) (by simp [String.length])
  simp only [splitMessages] at hm
  split at hm
  · rcases List.mem_append.mp hm with hm | hm
    · exact hmsg m hm
    · rw [List.mem_singleton.mp hm]
      exact le_trans (pyStrip_length_le _) hcur
  · exact hmsg m hm

/-- C2 (amended): every string in the Formatter's output has length at
most the transport limit 4096, provided that every rendered line is short
enough to open a fresh part together with any continuation header that can
occur (header length plus line length plus its newline is at most
limit − 50 = 4046, for every part number that can arise), and that in the
no-items case the fixed no-news message itself is within the limit.
Without the provisos the bound fails (see the counterexample with one
over-long line). -/
theorem format_digest_message_parts_within_limit (now chan : String)
    (scored_items : List ScoredItem)
    (hline : ∀ l ∈ digestLines now chan scored_items, ∀ k,
        k ≤ (digestLines now chan scored_items).length + 1 →
        (contHeader k).length + (l.length + 1) ≤ TELEGRAM_MAX_LENGTH - 50)
    (hempty : (no_news_message now chan).length ≤ TELEGRAM_MAX_LENGTH) :
    ∀ m ∈ format_digest_message now chan scored_items,
      m.length ≤ TELEGRAM_MAX_LENGTH := by
  intro m hm
  simp only [format_digest_message] at hm
  split at hm
  · rw [List.mem_singleton.mp hm]
    exact hempty
  · split at hm
    · rename_i hfull
      rw [List.mem_singleton.mp hm]
      exact hfull
    · have := splitMessages_bound (digestLines now chan scored_items) hline m hm
      omega

theorem format_digest_message_parts_within_limit_witness :
    ((format_digest_message "01/01/2025 09:00" "@chan"
        [⟨"T", "L", "S", "Src", 3⟩]).getD 0 "").length ≤ TELEGRAM_MAX_LENGTH :=
  format_digest_message_parts_within_limit "01/01/2025 09:00" "@chan"
    [⟨"T", "L", "S", "Src", 3⟩] (by decide) (by decide) _ (by decide)

/-- Title of the C2 counterexample item: 4500 copies of the letter a. -/
def cexTitle : String := String.mk (List.replicate 4500 'a')

/-- The C2 counterexample input: a single flash-news item (score below 5,
not a GitHub source) whose title exceeds the per-part budget. -/
def cexItem : ScoredItem := ⟨cexTitle, "L", "S", "X", 3⟩

theorem escape_replicate : ∀ n, (List.replicate n 'a').flatMap escapeChar = List.replicate n 'a' := by
  intro n
  induction n with
  | zero => rfl
  | succ n ih =>
    rw [List.replicate_succ, List.flatMap_cons, ih]
    rfl

theorem html_escape_cexTitle : html_escape cexTitle = cexTitle := by
  show String.mk ((List.replicate 4500 'a').flatMap escapeChar) = _
  rw [escape_replicate]
  rfl

theorem cexTitle_length : cexTitle.length = 4500 := by
  show (List.replicate 4500 'a').length = 4500
  rw [List.length_replicate]

theorem flashLine_cex_length : (flashLine cexItem).length = 4520 := by
  have h : flashLine cexItem
      = get_source_emoji "X" ++ " <a href=\x27" ++ "L" ++ "\x27>" ++ html_escape cexTitle
        ++ "</a>" := rfl
  rw [h, html_escape_cexTitle]
  simp only [String.length_append, cexTitle_length]
  decide

theorem pyStrip_append_newline (s : String) : pyStrip (s ++ "\n") = pyStrip s := by
  show String.mk ((((s ++ "\n").data.dropWhile pyIsSpace).reverse.dropWhile
      pyIsSpace).reverse) = _
  rw [String.data_append, show ("\n" : String).data = ['\n'] from rfl,
    List.dropWhile_append]
  by_cases hall : (s.data.dropWhile pyIsSpace).isEmpty = true
  · rw [if_pos hall]
    have h2 : ['\n'].dropWhile pyIsSpace = [] := by decide
    rw [h2]
    unfold pyStrip
    rw [List.isEmpty_iff.mp hall]
  · rw [if_neg hall]
    rw [List.reverse_append, show (['\n'] : List Char).reverse = ['\n'] from rfl,
      List.singleton_append, List.dropWhile_cons, show pyIsSpace '\n' = true from rfl]
    rfl

theorem pyStrip_eq_self_of (s : String) (c d : Char) (mid : List Char)
    (h : s.data = c :: (mid ++ [d])) (hc : pyIsSpace c = false)
    (hd : pyIsSpace d = false) : pyStrip s = s := by
  have key : ((s.data.dropWhile pyIsSpace).reverse.dropWhile pyIsSpace).reverse
      = s.data := by
    rw [h]
    simp [List.dropWhile_cons, hc, hd]
  show String.mk _ = s
  rw [key]

theorem bigpart_data : (contHeader 2 ++ flashLine cexItem).data
    = Char.ofNat 128240 ::
      ((" <b>המשך סיכום (2)</b>\n\n".data
        ++ ((get_source_emoji "X" ++ " <a href=\x27" ++ "L" ++ "\x27>"
              ++ html_escape cexTitle).data ++ ['<', '/', 'a'])) ++ ['>']) := by
  have h1 : contHeader 2 = "📰 <b>המשך סיכום (2)</b>\n\n" := by decide
  have h2 : ("📰 <b>המשך סיכום (2)</b>\n\n" : String).data
      = Char.ofNat 128240 :: (" <b>המשך סיכום (2)</b>\n\n" : String).data := by decide
  have h3 : flashLine cexItem
      = (get_source_emoji "X" ++ " <a href=\x27" ++ "L" ++ "\x27>" ++ html_escape cexTitle)
        ++ "</a>" := rfl
  rw [String.data_append, h1, h2, h3, String.data_append,
    show ("</a>" : String).data = ['<', '/', 'a'] ++ ['>'] from rfl]
  simp [List.append_assoc]

theorem pyStrip_bigpart :
    pyStrip (contHeader 2 ++ (flashLine cexItem ++ "\n"))
      = contHeader 2 ++ flashLine cexItem := by
  rw [← String.append_assoc, pyStrip_append_newline]
  exact pyStrip_eq_self_of _ (Char.ofNat 128240) '>' _ bigpart_data (by decide) (by decide)

theorem bigpart_length : (contHeader 2 ++ flashLine cexItem).length = 4545 := by
  rw [String.length_append, flashLine_cex_length]
  decide

theorem digestLines_cex :
    digestLines "x" "C" [cexItem]
      = ["📰 <b>סיכום חדשות AI יומי</b>", "🗓 " ++ "x", "", "⚡ <b>חדשות הבזק</b>", "",
         flashLine cexItem, "", "📣 Channel: " ++ "C"] := by
  have hb : isBigRelease cexItem = false := by decide
  have hg : isGithubItem cexItem = false := by decide
  have hf : isFlashNews cexItem = true := by decide
  simp [digestLines, List.filter, hb, hg, hf]

theorem splitStep_eq_pos (msgs : List String) (cur : String) (pn : Nat) (line : String)
    (k : Nat) (hk : pn + 1 = k)
    (hcond : TELEGRAM_MAX_LENGTH - 50 < cur.length + (line ++ "\n").length) :
    splitStep (msgs, cur, pn) line
      = (msgs ++ [pyStrip cur], contHeader k ++ (line ++ "\n"), k) := by
  subst hk
  show (if TELEGRAM_MAX_LENGTH - 50 < cur.length + (line ++ "\n").length then
      (msgs ++ [pyStrip cur], contHeader (pn + 1) ++ (line ++ "\n"), pn + 1)
    else (msgs, cur ++ (line ++ "\n"), pn)) = _
  rw [if_pos hcond]

theorem splitStep_eq_neg (msgs : List String) (cur : String) (pn : Nat) (line : String)
    (hcond : ¬ (TELEGRAM_MAX_LENGTH - 50 < cur.length + (line ++ "\n").length)) :
    splitStep (msgs, cur, pn) line = (msgs, cur ++ (line ++ "\n"), pn) := by
  show (if TELEGRAM_MAX_LENGTH - 50 < cur.length + (line ++ "\n").length then
      (msgs ++ [pyStrip cur], contHeader (pn + 1) ++ (line ++ "\n"), pn + 1)
    else (msgs, cur ++ (line ++ "\n"), pn)) = _
  rw [if_neg hcond]

theorem format_cex :
    format_digest_message "x" "C" [cexItem]
      = [pyStrip "📰 <b>סיכום חדשות AI יומי</b>\n🗓 x\n\n⚡ <b>חדשות הבזק</b>\n\n",
         pyStrip (contHeader 2 ++ (flashLine cexItem ++ "\n")),
         pyStrip ((contHeader 3 ++ ("" ++ "\n")) ++ (("📣 Channel: " ++ "C") ++ "\n"))] := by
  have hf : isFlashNews cexItem = true := by decide
  have hfull : ¬ ((pyJoin "\n" (digestLines "x" "C" [cexItem])).length
      ≤ TELEGRAM_MAX_LENGTH) := by
    rw [digestLines_cex]
    simp only [pyJoin, String.length_append, flashLine_cex_length]
    decide
  have hpre : (["📰 <b>סיכום חדשות AI יומי</b>", "🗓 " ++ "x", "", "⚡ <b>חדשות הבזק</b>",
      ""] : List String).foldl splitStep ([], "", 1)
      = ([], "📰 <b>סיכום חדשות AI יומי</b>\n🗓 x\n\n⚡ <b>חדשות הבזק</b>\n\n", 1) := by
    decide
  have hcond6 : TELEGRAM_MAX_LENGTH - 50
      < ("📰 <b>סיכום חדשות AI יומי</b>\n🗓 x\n\n⚡ <b>חדשות הבזק</b>\n\n" : String).length
        + (flashLine cexItem ++ "\n").length := by
    rw [length_append_newline, flashLine_cex_length]
    decide
  have hcond7 : TELEGRAM_MAX_LENGTH - 50
      < (contHeader 2 ++ (flashLine cexItem ++ "\n")).length
        + (("" : String) ++ "\n").length := by
    rw [String.length_append, length_append_newline, flashLine_cex_length]
    decide
  have hcond8 : ¬ (TELEGRAM_MAX_LENGTH - 50
      < (contHeader 3 ++ ("" ++ "\n")).length
        + (("📣 Channel: " ++ "C") ++ "\n").length) := by
    decide
  have hfold : (digestLines "x" "C" [cexItem]).foldl splitStep ([], "", 1)
      = ((([] ++ [pyStrip "📰 <b>סיכום חדשות AI יומי</b>\n🗓 x\n\n⚡ <b>חדשות הבזק</b>\n\n"])
            ++ [pyStrip (contHeader 2 ++ (flashLine cexItem ++ "\n"))]),
         (contHeader 3 ++ ("" ++ "\n")) ++ (("📣 Channel: " ++ "C") ++ "\n"), 3) := by
    rw [digestLines_cex,
      show (["📰 <b>סיכום חדשות AI יומי</b>", "🗓 " ++ "x", "", "⚡ <b>חדשות הבזק</b>", "",
          flashLine cexItem, "", "📣 Channel: " ++ "C"] : List String)
        = ["📰 <b>סיכום חדשות AI יומי</b>", "🗓 " ++ "x", "", "⚡ <b>חדשות הבזק</b>", ""]
          ++ [flashLine cexItem, "", "📣 Channel: " ++ "C"] from rfl,
      List.foldl_append, hpre,
      List.foldl_cons, splitStep_eq_pos _ _ _ _ 2 rfl hcond6,
      List.foldl_cons, splitStep_eq_pos _ _ _ _ 3 rfl hcond7,
      List.foldl_cons, splitStep_eq_neg _ _ _ _ hcond8,
      List.foldl_nil]
  have hne : pyStrip ((contHeader 3 ++ ("" ++ "\n")) ++ (("📣 Channel: " ++ "C") ++ "\n"))
      ≠ "" := by decide
  have hsm : splitMessages (digestLines "x" "C" [cexItem])
      = [pyStrip "📰 <b>סיכום חדשות AI יומי</b>\n🗓 x\n\n⚡ <b>חדשות הבזק</b>\n\n",
         pyStrip (contHeader 2 ++ (flashLine cexItem ++ "\n")),
         pyStrip ((contHeader 3 ++ ("" ++ "\n")) ++ (("📣 Channel: " ++ "C") ++ "\n"))] := by
    have hzeta : splitMessages (digestLines "x" "C" [cexItem])
        = (if pyStrip ((digestLines "x" "C" [cexItem]).foldl splitStep ([], "", 1)).2.1
              ≠ "" then
            ((digestLines "x" "C" [cexItem]).foldl splitStep ([], "", 1)).1
              ++ [pyStrip ((digestLines "x" "C" [cexItem]).foldl splitStep ([], "", 1)).2.1]
          else ((digestLines "x" "C" [cexItem]).foldl splitStep ([], "", 1)).1) := rfl
    rw [hzeta, hfold]
    show (if pyStrip ((contHeader 3 ++ ("" ++ "\n")) ++ (("📣 Channel: " ++ "C") ++ "\n"))
          ≠ "" then _ else _) = _
    rw [if_pos hne]
    rw [List.nil_append, List.singleton_append]
    rfl
  have hzeta2 : format_digest_message "x" "C" [cexItem]
      = (if ([cexItem].filter isBigRelease).isEmpty ∧ ([cexItem].filter isGithubItem).isEmpty
            ∧ ([cexItem].filter isFlashNews).isEmpty then
          [no_news_message "x" "C"]
        else if (pyJoin "\n" (digestLines "x" "C" [cexItem])).length ≤ TELEGRAM_MAX_LENGTH
          then [pyJoin "\n" (digestLines "x" "C" [cexItem])]
        else splitMessages (digestLines "x" "C" [cexItem])) := rfl
  rw [hzeta2, if_neg (by simp [List.filter, hf]), if_neg hfull]
  exact hsm

/-- C2 (counterexample): the splitting loop starts a fresh part with the
continuation header and then appends the pending line unconditionally, so
a single line longer than the per-part budget produces an emitted part
exceeding the transport limit: one flash item whose title is 4500
characters yields a part of length 4545 > 4096. -/
theorem format_digest_message_over_limit :
    ¬ ∀ m ∈ format_digest_message "x" "C" [cexItem], m.length ≤ TELEGRAM_MAX_LENGTH := by
  intro hall
  have hmem : pyStrip (contHeader 2 ++ (flashLine cexItem ++ "\n"))
      ∈ format_digest_message "x" "C" [cexItem] := by
    rw [format_cex]
    exact List.mem_cons_of_mem _ (List.mem_cons_self _ _)
  have hlen := hall _ hmem
  rw [pyStrip_bigpart, bigpart_length] at hlen
  exact absurd hlen (by decide)

end NewsAgg
